import Mathlib

/-!
Verification of the phrase anti-repetition selection engine of the
motivational-phrase email service.

The authoritative source is `src/database/user_phrase_tracking_schema.sql`:

* table `user_phrase_history` with the constraint `UNIQUE(user_id, phrase_id)`;
* stored function `get_smart_phrase_for_user(p_user_id)`: counts the user's
  history rows, and when that count reaches the catalog size it inserts a
  `cycle_reset` sentinel row (phrase id `00000000-...-0000`), deletes the
  user's rows whose `sent_at` is strictly below the `sent_at` obtained by
  `ORDER BY sent_at DESC LIMIT 1 OFFSET 50`, and finally picks a random
  phrase whose id has no `email_status = 'sent'` row for the user;
* stored function `record_phrase_sent(p_user_id, p_phrase_id, p_plan_id)`:
  an upsert on `(user_id, phrase_id)` that always returns `TRUE`.

Rows of SQL tables are modelled as lists of structures; UUIDs as naturals
with `0` standing for the reserved nil UUID; `NOW()` as an explicit `now`
argument; `ORDER BY RANDOM() LIMIT 1` as indexing by an arbitrary oracle
`r`; a raised PostgreSQL error (a uniqueness violation escaping the
function) as `none` in an `Option` result.
-/

/-- A row of the `user_phrase_history` table
(`src/database/user_phrase_tracking_schema.sql`, lines 9-20). -/
structure HistoryRecord where
  user_id : Nat
  phrase_id : Nat
  sent_at : Nat
  email_status : String
  plan_id : Option Int
deriving Repr, DecidableEq

/-- A row of the `phrases` table (`simple_freemium` schema): immutable id,
text and author. -/
structure Phrase where
  id : Nat
  text : String
  author : String
deriving Repr, DecidableEq

/-- The database state seen by the engine: the phrase catalog and the
history ledger. -/
structure DB where
  phrases : List Phrase
  user_phrase_history : List HistoryRecord
deriving Repr, DecidableEq

/-- The reserved nil UUID `00000000-0000-0000-0000-000000000000` used for
cycle-reset sentinel rows. -/
def sentinelPhraseId : Nat := 0

/-- All history rows of one user (`WHERE user_id = p_user_id`). -/
def userHistory (db : DB) (u : Nat) : List HistoryRecord :=
  db.user_phrase_history.filter (fun rec => rec.user_id == u)

/-- `SELECT COUNT(*) FROM phrases` — the catalog size. -/
def total_phrases_count (db : DB) : Nat := db.phrases.length

/-- `SELECT COUNT(*) FROM user_phrase_history WHERE user_id = p_user_id` —
note: the source filters on the user only, not on `email_status`. -/
def user_received_count (db : DB) (u : Nat) : Nat := (userHistory db u).length

/-- The phrase ids of the user's rows with `email_status = 'sent'`
(the `NOT IN` subquery of the selection step). -/
def sentPhraseIds (db : DB) (u : Nat) : List Nat :=
  (db.user_phrase_history.filter
    (fun rec => rec.user_id == u && rec.email_status == "sent")).map
    (fun rec => rec.phrase_id)

/-- Whether a row with this `(user_id, phrase_id)` pair exists — the key of
the `UNIQUE(user_id, phrase_id)` constraint. -/
def hasPair (db : DB) (u p : Nat) : Bool :=
  db.user_phrase_history.any (fun rec => rec.user_id == u && rec.phrase_id == p)

/-- A plain `INSERT` into `user_phrase_history`: fails (a raised uniqueness
violation, modelled as `none`) when the `(user_id, phrase_id)` pair already
exists. -/
def insertHistory (db : DB) (rec : HistoryRecord) : Option DB :=
  if hasPair db rec.user_id rec.phrase_id then none
  else some { db with user_phrase_history := db.user_phrase_history ++ [rec] }

/-- The sentinel row inserted by the cycle-reset branch:
`VALUES (p_user_id, '00000000-...', 'cycle_reset', NULL)` with
`sent_at DEFAULT NOW()`. -/
def cycleResetSentinel (u now : Nat) : HistoryRecord :=
  { user_id := u, phrase_id := sentinelPhraseId, sent_at := now,
    email_status := "cycle_reset", plan_id := none }

/-- The scalar subquery of the prune step:
`SELECT sent_at FROM user_phrase_history WHERE user_id = p_user_id
 ORDER BY sent_at DESC LIMIT 1 OFFSET 50` — the 51st-newest `sent_at` of
the user, absent (SQL `NULL`) when the user has at most 50 rows. -/
def pruneCutoff (db : DB) (u : Nat) : Option Nat :=
  (((userHistory db u).map (fun rec => rec.sent_at)).insertionSort (· ≥ ·))[50]?

/-- The prune step: `DELETE FROM user_phrase_history WHERE user_id = p_user_id
AND sent_at < (subquery)`. When the subquery is empty the comparison with
`NULL` holds of no row and nothing is deleted. -/
def prune (db : DB) (u : Nat) : DB :=
  match pruneCutoff db u with
  | none => db
  | some cut =>
      { db with user_phrase_history :=
          db.user_phrase_history.filter (fun rec => !(rec.user_id == u && rec.sent_at < cut)) }

/-- The candidate set of the selection step: phrases whose id is not among
the user's `'sent'` rows. -/
def candidatePhrases (db : DB) (u : Nat) : List Phrase :=
  db.phrases.filter (fun p => !((sentPhraseIds db u).contains p.id))

/-- `ORDER BY RANDOM() LIMIT 1` over the candidate set, modelled by an
arbitrary oracle index `r`: some candidate when the set is non-empty,
`none` (so an empty result set) otherwise. -/
def selectRandom (db : DB) (u r : Nat) : Option Phrase :=
  let cs := candidatePhrases db u
  cs[r % cs.length]?

/-- `get_smart_phrase_for_user(p_user_id)`
(`src/database/user_phrase_tracking_schema.sql`, lines 40-93).
Returns `none` when a uniqueness violation escapes the function, otherwise
`some (db', result)`: the updated table and the (possibly empty) returned
row. -/
def get_smart_phrase_for_user (db : DB) (u now r : Nat) :
    Option (DB × Option Phrase) :=
  if user_received_count db u ≥ total_phrases_count db then
    match insertHistory db (cycleResetSentinel u now) with
    | none => none
    | some db1 =>
        let db2 := prune db1 u
        some (db2, selectRandom db2 u r)
  else
    some (db, selectRandom db u r)

/-- `record_phrase_sent(p_user_id, p_phrase_id, p_plan_id)`
(`src/database/user_phrase_tracking_schema.sql`, lines 96-115): an
`INSERT ... ON CONFLICT (user_id, phrase_id) DO UPDATE SET sent_at = NOW(),
email_status = 'sent', plan_id = EXCLUDED.plan_id`, then `RETURN TRUE`. -/
def record_phrase_sent (db : DB) (u p : Nat) (plan : Option Int) (now : Nat) :
    DB × Bool :=
  if hasPair db u p then
    ({ db with user_phrase_history :=
        db.user_phrase_history.map (fun rec =>
          if rec.user_id == u && rec.phrase_id == p then
            { rec with sent_at := now, email_status := "sent", plan_id := plan }
          else rec) }, true)
  else
    ({ db with user_phrase_history :=
        db.user_phrase_history ++
          [{ user_id := u, phrase_id := p, sent_at := now,
             email_status := "sent", plan_id := plan }] }, true)

/-- The `UNIQUE(user_id, phrase_id)` table constraint as an invariant on the
ledger: no two rows share the `(user_id, phrase_id)` pair. -/
def UniquePairs (l : List HistoryRecord) : Prop :=
  l.Pairwise (fun a b => ¬(a.user_id = b.user_id ∧ a.phrase_id = b.phrase_id))

instance (l : List HistoryRecord) : Decidable (UniquePairs l) :=
  inferInstanceAs (Decidable (l.Pairwise
    (fun (a b : HistoryRecord) =>
      ¬(a.user_id = b.user_id ∧ a.phrase_id = b.phrase_id))))

/-- Modelled from the spec: the Eligibility Gate `isDue(subscriberId, planId,
now)` of §4.2 — its implementation (`scripts/send_emails.py`) is not among
the sources; only the `subscription_plans` table (`frequency_hours`,
`max_emails_per_day`, `src/database/schema.sql` lines 13-23) is. Time is in
minutes; the plan's interval is `frequencyHours * 60`. A subscriber with no
prior HistoryRecord is always due; otherwise due exactly when
`now - lastSentAt >= interval` and the sends already recorded today are
below the plan's max-per-day cap. -/
def isDue (lastSentAt : Option Nat) (sentToday frequencyHours maxPerDay now : Nat) :
    Bool :=
  match lastSentAt with
  | none => true
  | some t => decide (now - t ≥ frequencyHours * 60) && decide (sentToday < maxPerDay)

/-! ### Concrete database fixtures -/

/-- Catalog item A. -/
def phA : Phrase := { id := 1, text := "Sigue adelante", author := "Ana" }

/-- Catalog item B. -/
def phB : Phrase := { id := 2, text := "Nunca te rindas", author := "Beto" }

/-- Catalog item C. -/
def phC : Phrase := { id := 3, text := "Hoy es el dia", author := "Carla" }

/-- A `'sent'` history row. -/
def sentRec (u p t : Nat) : HistoryRecord :=
  { user_id := u, phrase_id := p, sent_at := t, email_status := "sent",
    plan_id := none }

/-- Three-item catalog; subscriber 7 has `'sent'` rows for all three items. -/
def dbFull3 : DB :=
  { phrases := [phA, phB, phC],
    user_phrase_history := [sentRec 7 1 10, sentRec 7 2 11, sentRec 7 3 12] }

/-- Three-item catalog; subscriber 7 has `'sent'` rows for A and B only. -/
def dbPartial : DB :=
  { phrases := [phA, phB, phC],
    user_phrase_history := [sentRec 7 1 10, sentRec 7 2 11] }

/-- Three-item catalog; subscriber 7 has two `'sent'` rows and one `'failed'`
row, so only two phrases count as sent. -/
def dbFailed : DB :=
  { phrases := [phA, phB, phC],
    user_phrase_history :=
      [sentRec 7 1 10, sentRec 7 2 11,
       { user_id := 7, phrase_id := 3, sent_at := 12, email_status := "failed",
         plan_id := none }] }

/-- The degenerate empty catalog. -/
def dbEmptyCatalog : DB := { phrases := [], user_phrase_history := [] }

/-- One-item catalog; subscriber 7 already holds a cycle-reset sentinel row
from a previous exhaustion, plus the `'sent'` row covering the catalog. -/
def dbWithSentinel : DB :=
  { phrases := [phA],
    user_phrase_history :=
      [sentRec 7 1 10,
       { user_id := 7, phrase_id := 0, sent_at := 11,
         email_status := "cycle_reset", plan_id := none }] }

/-- Three-item catalog; subscriber 7 has 52 `'sent'` rows (distinct
timestamps 1..52), enough for the prune cutoff subquery to return a row. -/
def db52 : DB :=
  { phrases := [phA, phB, phC],
    user_phrase_history := (List.range 52).map (fun i => sentRec 7 (i + 1) (i + 1)) }

/-! ### Helper lemmas -/

theorem selectRandom_eq_none {db : DB} {u : Nat} (h : candidatePhrases db u = [])
    (r : Nat) : selectRandom db u r = none := by
  unfold selectRandom
  rw [h]
  simp

theorem selectRandom_mem {db : DB} {u r : Nat} {ph : Phrase}
    (h : selectRandom db u r = some ph) : ph ∈ candidatePhrases db u := by
  unfold selectRandom at h
  exact List.getElem?_mem h

theorem candidatePhrases_not_sent {db : DB} {u : Nat} {ph : Phrase}
    (h : ph ∈ candidatePhrases db u) : ph.id ∉ sentPhraseIds db u := by
  unfold candidatePhrases at h
  have := (List.mem_filter.mp h).2
  simpa using this

theorem uniquePairs_filter {l : List HistoryRecord} (p : HistoryRecord → Bool)
    (h : UniquePairs l) : UniquePairs (l.filter p) :=
  List.Pairwise.sublist (List.filter_sublist l) h

theorem uniquePairs_append {l : List HistoryRecord} {rec : HistoryRecord}
    (h : UniquePairs l)
    (hnew : ∀ x ∈ l, ¬(x.user_id = rec.user_id ∧ x.phrase_id = rec.phrase_id)) :
    UniquePairs (l ++ [rec]) := by
  unfold UniquePairs
  rw [List.pairwise_append]
  refine ⟨h, List.pairwise_singleton _ _, ?_⟩
  intro x hx y hy
  have : y = rec := by simpa using hy
  subst this
  exact hnew x hx

theorem insertHistory_eq {db db' : DB} {rec : HistoryRecord}
    (h : insertHistory db rec = some db') :
    db'.user_phrase_history = db.user_phrase_history ++ [rec] ∧
      db'.phrases = db.phrases ∧ hasPair db rec.user_id rec.phrase_id = false := by
  unfold insertHistory at h
  by_cases hp : hasPair db rec.user_id rec.phrase_id
  · rw [if_pos hp] at h; cases h
  · rw [if_neg hp] at h
    cases h
    exact ⟨rfl, rfl, by simpa using hp⟩

theorem insertHistory_uniquePairs {db db' : DB} {rec : HistoryRecord}
    (hu : UniquePairs db.user_phrase_history)
    (h : insertHistory db rec = some db') :
    UniquePairs db'.user_phrase_history := by
  obtain ⟨heq, -, hp⟩ := insertHistory_eq h
  rw [heq]
  apply uniquePairs_append hu
  intro x hx hcon
  have : hasPair db rec.user_id rec.phrase_id = true := by
    unfold hasPair
    rw [List.any_eq_true]
    exact ⟨x, hx, by simp [hcon.1, hcon.2]⟩
  rw [hp] at this
  cases this

theorem sentPhraseIds_nodup {db : DB} {u : Nat}
    (hu : UniquePairs db.user_phrase_history) : (sentPhraseIds db u).Nodup := by
  unfold sentPhraseIds
  have h1 : UniquePairs (db.user_phrase_history.filter
      (fun rec => rec.user_id == u && rec.email_status == "sent")) :=
    uniquePairs_filter _ hu
  have h2 : (db.user_phrase_history.filter
      (fun rec => rec.user_id == u && rec.email_status == "sent")).Pairwise
      (fun a b => a.phrase_id ≠ b.phrase_id) := by
    refine List.Pairwise.imp_of_mem ?_ h1
    intro a b ha hb hR heq
    have hau : a.user_id = u := by
      have := (List.mem_filter.mp ha).2
      simp at this
      exact this.1
    have hbu : b.user_id = u := by
      have := (List.mem_filter.mp hb).2
      simp at this
      exact this.1
    exact hR ⟨hau.trans hbu.symm, heq⟩
  exact List.Pairwise.map _ (fun a b h => h) h2

theorem prune_phrases (db : DB) (u : Nat) : (prune db u).phrases = db.phrases := by
  unfold prune
  cases pruneCutoff db u <;> rfl

theorem prune_uniquePairs {db : DB} {u : Nat}
    (hu : UniquePairs db.user_phrase_history) :
    UniquePairs (prune db u).user_phrase_history := by
  unfold prune
  cases pruneCutoff db u with
  | none => exact hu
  | some cut => exact uniquePairs_filter _ hu

theorem get_smart_result {db db' : DB} {u now r : Nat} {res : Option Phrase}
    (h : get_smart_phrase_for_user db u now r = some (db', res)) :
    res = selectRandom db' u r := by
  unfold get_smart_phrase_for_user at h
  by_cases hc : user_received_count db u ≥ total_phrases_count db
  · rw [if_pos hc] at h
    cases hins : insertHistory db (cycleResetSentinel u now) with
    | none => rw [hins] at h; cases h
    | some db1 =>
        rw [hins] at h
        simp only [Option.some.injEq, Prod.mk.injEq] at h
        rw [← h.1, ← h.2]
  · rw [if_neg hc] at h
    simp only [Option.some.injEq, Prod.mk.injEq] at h
    rw [← h.1, ← h.2]

theorem get_smart_uniquePairs {db db' : DB} {u now r : Nat} {res : Option Phrase}
    (hu : UniquePairs db.user_phrase_history)
    (h : get_smart_phrase_for_user db u now r = some (db', res)) :
    UniquePairs db'.user_phrase_history := by
  unfold get_smart_phrase_for_user at h
  by_cases hc : user_received_count db u ≥ total_phrases_count db
  · rw [if_pos hc] at h
    cases hins : insertHistory db (cycleResetSentinel u now) with
    | none => rw [hins] at h; cases h
    | some db1 =>
        rw [hins] at h
        simp only [Option.some.injEq, Prod.mk.injEq] at h
        rw [← h.1]
        exact prune_uniquePairs (insertHistory_uniquePairs hu hins)
  · rw [if_neg hc] at h
    simp only [Option.some.injEq, Prod.mk.injEq] at h
    rw [← h.1]
    exact hu

/-- C1: for every subscriber, the `'sent'` history rows carry pairwise
distinct phrase ids (a consequence of `UNIQUE(user_id, phrase_id)`), and
`get_smart_phrase_for_user` never returns a phrase whose id the resulting
ledger already records with status `'sent'` for that subscriber. -/
theorem selectNext_no_repeat (db db' : DB) (u now r : Nat) (ph : Phrase)
    (hu : UniquePairs db.user_phrase_history)
    (hrun : get_smart_phrase_for_user db u now r = some (db', some ph)) :
    (sentPhraseIds db' u).Nodup ∧ ph.id ∉ sentPhraseIds db' u ∧
      (¬user_received_count db u ≥ total_phrases_count db → db' = db) := by
  have hres := get_smart_result hrun
  have hu' := get_smart_uniquePairs hu hrun
  refine ⟨sentPhraseIds_nodup hu',
    candidatePhrases_not_sent (selectRandom_mem hres.symm), ?_⟩
  intro hc
  unfold get_smart_phrase_for_user at hrun
  rw [if_neg hc] at hrun
  simp only [Option.some.injEq, Prod.mk.injEq] at hrun
  exact hrun.1.symm

/-- C1 witness: subscriber 7 has sent A and B out of a 3-item catalog; the
call returns C, whose id 3 has no `'sent'` row. -/
theorem selectNext_no_repeat_witness :
    (sentPhraseIds dbPartial 7).Nodup ∧ phC.id ∉ sentPhraseIds dbPartial 7 ∧
      (¬user_received_count dbPartial 7 ≥ total_phrases_count dbPartial →
        dbPartial = dbPartial) :=
  selectNext_no_repeat dbPartial dbPartial 7 100 0 phC (by decide) (by decide)

theorem insertHistory_of_not_hasPair {db : DB} {rec : HistoryRecord}
    (h : hasPair db rec.user_id rec.phrase_id = false) :
    insertHistory db rec =
      some { db with user_phrase_history := db.user_phrase_history ++ [rec] } := by
  simp [insertHistory, h]

theorem insert_sentinel {db : DB} {u now : Nat}
    (h : hasPair db u sentinelPhraseId = false) :
    insertHistory db (cycleResetSentinel u now) =
      some { db with user_phrase_history :=
               db.user_phrase_history ++ [cycleResetSentinel u now] } :=
  insertHistory_of_not_hasPair h

theorem insert_sentinel_fails {db : DB} {u now : Nat}
    (h : hasPair db u sentinelPhraseId = true) :
    insertHistory db (cycleResetSentinel u now) = none := by
  unfold insertHistory
  rw [show hasPair db (cycleResetSentinel u now).user_id
        (cycleResetSentinel u now).phrase_id = true from h]
  rfl

theorem get_smart_reset_branch {db db1 : DB} {u now : Nat}
    (hc : user_received_count db u ≥ total_phrases_count db)
    (hins : insertHistory db (cycleResetSentinel u now) = some db1) (r : Nat) :
    get_smart_phrase_for_user db u now r =
      some (prune db1 u, selectRandom (prune db1 u) u r) := by
  unfold get_smart_phrase_for_user
  rw [if_pos hc, hins]

theorem candidatePhrases_of_empty_catalog {db : DB} (u : Nat)
    (h : db.phrases = []) : candidatePhrases db u = [] := by
  unfold candidatePhrases
  rw [h]
  rfl

/-- The ledger of `dbFull3` after the cycle-reset sentinel insert: all three
`'sent'` rows survive the prune (4 rows is far below the 51-row cutoff). -/
def dbFull3Reset : DB :=
  { phrases := [phA, phB, phC],
    user_phrase_history :=
      [sentRec 7 1 10, sentRec 7 2 11, sentRec 7 3 12, cycleResetSentinel 7 100] }

/-- C2: code bug. With the 3-item catalog fully sent, `get_smart_phrase_for_user`
does insert the cycle-reset sentinel, but the prune removes nothing (4 rows is
below the 51-row cutoff), so the final selection still excludes A, B and C and
the call returns an empty result set for every random draw — not one of
{A, B, C} as the spec scenario requires. -/
theorem cycle_reset_returns_no_item_bug :
    (∀ r : Nat, get_smart_phrase_for_user dbFull3 7 100 r =
        some (dbFull3Reset, none)) ∧
      cycleResetSentinel 7 100 ∈ dbFull3Reset.user_phrase_history := by
  refine ⟨?_, by decide⟩
  intro r
  have hins : insertHistory dbFull3 (cycleResetSentinel 7 100) =
      some dbFull3Reset := by decide
  rw [get_smart_reset_branch (by decide) hins r]
  have hp : prune dbFull3Reset 7 = dbFull3Reset := by decide
  rw [hp, selectRandom_eq_none (by decide) r]

/-- C6 counterexample: with an empty catalog the call does not fail with a
typed error — it succeeds, returning an empty result set (and as a side
effect inserts a cycle-reset sentinel). -/
theorem empty_catalog_no_error_cex :
    get_smart_phrase_for_user dbEmptyCatalog 7 5 0 =
      some ({ phrases := [], user_phrase_history := [cycleResetSentinel 7 5] },
        none) := by decide

/-- C6 amended: when the catalog is empty, `get_smart_phrase_for_user`
returns an empty result set without signalling any error as long as the
subscriber holds no sentinel row; once a sentinel row exists (each
empty-catalog call inserts one), the next call raises a uniqueness
violation instead of reporting `NoContentAvailable`. -/
theorem empty_catalog_empty_result (db : DB) (u now r : Nat)
    (hcat : db.phrases = []) :
    (hasPair db u sentinelPhraseId = false →
      ∃ db', get_smart_phrase_for_user db u now r = some (db', none)) ∧
    (hasPair db u sentinelPhraseId = true →
      get_smart_phrase_for_user db u now r = none) := by
  have hc : user_received_count db u ≥ total_phrases_count db := by
    unfold total_phrases_count
    rw [hcat]
    exact Nat.zero_le _
  constructor
  · intro hs
    refine ⟨prune { db with user_phrase_history :=
        db.user_phrase_history ++ [cycleResetSentinel u now] } u, ?_⟩
    rw [get_smart_reset_branch hc (insert_sentinel hs) r]
    rw [selectRandom_eq_none (candidatePhrases_of_empty_catalog u ?_) r]
    rw [prune_phrases]
    exact hcat
  · intro hs
    unfold get_smart_phrase_for_user
    rw [if_pos hc, insert_sentinel_fails hs]

/-- C6 amended witness: both halves at the concrete empty-catalog database
and at the same database after its first call. -/
theorem empty_catalog_empty_result_witness :
    (∃ db', get_smart_phrase_for_user dbEmptyCatalog 7 5 0 = some (db', none)) ∧
      get_smart_phrase_for_user
        { phrases := [], user_phrase_history := [cycleResetSentinel 7 5] }
        7 6 0 = none := by
  constructor
  · exact (empty_catalog_empty_result dbEmptyCatalog 7 5 0 (by decide)).1 (by decide)
  · exact (empty_catalog_empty_result
      { phrases := [], user_phrase_history := [cycleResetSentinel 7 5] }
      7 6 0 (by decide)).2 (by decide)

/-- C7: code bug. The `UNIQUE(user_id, phrase_id)` constraint also covers the
reserved sentinel id, so a subscriber who already holds a cycle-reset
sentinel row cannot receive a second one: at the next exhaustion the
sentinel `INSERT` violates the constraint and `get_smart_phrase_for_user`
raises instead of accumulating sentinel rows. -/
theorem second_cycle_reset_raises :
    (∀ r : Nat, get_smart_phrase_for_user dbWithSentinel 7 100 r = none) ∧
      insertHistory dbWithSentinel (cycleResetSentinel 7 100) = none := by
  refine ⟨?_, by decide⟩
  intro r
  unfold get_smart_phrase_for_user
  rw [if_pos (by decide), insert_sentinel_fails (by decide)]

/-- C5 counterexample: subscriber 7 has only two `'sent'` rows against a
3-item catalog (the third row is `'failed'`), yet the cycle-reset branch
fires and inserts a sentinel, because the count in step 1 ignores
`email_status`. -/
theorem seen_count_includes_non_sent_cex :
    (sentPhraseIds dbFailed 7).length = 2 ∧
      total_phrases_count dbFailed = 3 ∧
      get_smart_phrase_for_user dbFailed 7 100 0 =
        some ({ phrases := [phA, phB, phC],
                user_phrase_history :=
                  dbFailed.user_phrase_history ++ [cycleResetSentinel 7 100] },
          some phC) := by decide

theorem get_smart_no_reset {db : DB} {u now : Nat}
    (hc : ¬user_received_count db u ≥ total_phrases_count db) (r : Nat) :
    get_smart_phrase_for_user db u now r = some (db, selectRandom db u r) := by
  unfold get_smart_phrase_for_user
  rw [if_neg hc]

theorem userHistory_insert_sentinel (db : DB) (u now : Nat) :
    userHistory { db with user_phrase_history :=
        db.user_phrase_history ++ [cycleResetSentinel u now] } u =
      userHistory db u ++ [cycleResetSentinel u now] := by
  unfold userHistory
  rw [List.filter_append]
  simp [cycleResetSentinel]

theorem pruneCutoff_mem {db : DB} {u cut : Nat}
    (h : pruneCutoff db u = some cut) :
    cut ∈ (userHistory db u).map (fun rec => rec.sent_at) := by
  unfold pruneCutoff at h
  have hmem := List.getElem?_mem h
  rwa [List.mem_insertionSort] at hmem

theorem mem_prune {db : DB} {u : Nat} {rec : HistoryRecord}
    (hmem : rec ∈ db.user_phrase_history)
    (hkeep : ∀ cut, pruneCutoff db u = some cut →
      ¬(rec.user_id = u ∧ rec.sent_at < cut)) :
    rec ∈ (prune db u).user_phrase_history := by
  unfold prune
  cases hcut : pruneCutoff db u with
  | none => exact hmem
  | some cut =>
      refine List.mem_filter.mpr ⟨hmem, ?_⟩
      have := hkeep cut hcut
      simp only [Bool.not_eq_eq_eq_not, Bool.not_true, Bool.and_eq_false_imp]
      intro hu
      simp at hu
      simp only [decide_eq_false_iff_not]
      intro hlt
      exact this ⟨hu, hlt⟩

/-- C5 amended: the count computed in step 1 is the subscriber's total
history row count regardless of `email_status` (failed rows and sentinels
included), so the cycle-reset branch fires — observable as a `cycle_reset`
row in the resulting ledger — exactly when that total reaches the catalog
size, not when the number of `'sent'` rows does. -/
theorem reset_triggers_on_total_row_count (db : DB) (u now r : Nat)
    (hs : hasPair db u sentinelPhraseId = false)
    (hcr : ∀ rec ∈ userHistory db u, rec.email_status ≠ "cycle_reset")
    (hnow : ∀ rec ∈ userHistory db u, rec.sent_at ≤ now) :
    ∃ db' res, get_smart_phrase_for_user db u now r = some (db', res) ∧
      ((userHistory db' u).any
          (fun rec => rec.email_status == "cycle_reset") = true ↔
        user_received_count db u ≥ total_phrases_count db) := by
  by_cases hc : user_received_count db u ≥ total_phrases_count db
  · set db1 : DB := { db with user_phrase_history :=
      db.user_phrase_history ++ [cycleResetSentinel u now] } with hdb1
    refine ⟨prune db1 u, selectRandom (prune db1 u) u r,
      get_smart_reset_branch hc (insert_sentinel hs) r, ?_⟩
    have hsent : cycleResetSentinel u now ∈ (prune db1 u).user_phrase_history := by
      apply mem_prune
      · exact List.mem_append_right _ (List.mem_singleton.mpr rfl)
      · intro cut hcut hcon
        have hcm := pruneCutoff_mem hcut
        rw [userHistory_insert_sentinel] at hcm
        rw [List.map_append] at hcm
        have hle : cut ≤ now := by
          rcases List.mem_append.mp hcm with hl | hr
          · obtain ⟨rec, hrec, hreq⟩ := List.mem_map.mp hl
            exact hreq ▸ hnow rec hrec
          · simp [cycleResetSentinel] at hr
            omega
        have : (cycleResetSentinel u now).sent_at = now := rfl
        omega
    have hany : (userHistory (prune db1 u) u).any
        (fun rec => rec.email_status == "cycle_reset") = true := by
      rw [List.any_eq_true]
      refine ⟨cycleResetSentinel u now, ?_, by rfl⟩
      unfold userHistory
      exact List.mem_filter.mpr ⟨hsent, by simp [cycleResetSentinel]⟩
    exact iff_of_true hany hc
  · refine ⟨db, selectRandom db u r, get_smart_no_reset hc r, ?_⟩
    constructor
    · intro hany
      obtain ⟨rec, hrec, hstat⟩ := List.any_eq_true.mp hany
      exact absurd (by simpa using hstat) (hcr rec hrec)
    · intro h
      exact absurd h hc

/-- C5 amended witness: at `dbFailed` (two `'sent'` rows, one `'failed'`,
3-item catalog) the branch fires although only two phrases were sent. -/
theorem reset_triggers_on_total_row_count_witness :
    ∃ db' res, get_smart_phrase_for_user dbFailed 7 100 0 = some (db', res) ∧
      ((userHistory db' 7).any
          (fun rec => rec.email_status == "cycle_reset") = true ↔
        user_received_count dbFailed 7 ≥ total_phrases_count dbFailed) :=
  reset_triggers_on_total_row_count dbFailed 7 100 0 (by decide) (by decide)
    (by decide)

theorem record_phrase_sent_returns_true (db : DB) (u p : Nat)
    (plan : Option Int) (now : Nat) :
    (record_phrase_sent db u p plan now).2 = true := by
  unfold record_phrase_sent
  by_cases h : hasPair db u p <;> simp [h]

theorem filter_map_upsert {l : List HistoryRecord} {u p : Nat}
    {plan : Option Int} {now : Nat}
    (hu : UniquePairs l)
    (hany : l.any (fun rec => rec.user_id == u && rec.phrase_id == p) = true) :
    ∃ rec0 : HistoryRecord,
      (l.map (fun rec =>
          if rec.user_id == u && rec.phrase_id == p then
            { rec with sent_at := now, email_status := "sent", plan_id := plan }
          else rec)).filter
        (fun rec => rec.user_id == u && rec.phrase_id == p) = [rec0] ∧
      rec0.sent_at = now ∧ rec0.email_status = "sent" := by
  induction l with
  | nil => cases hany
  | cons a t ih =>
      rw [List.map_cons]
      by_cases ha : (a.user_id == u && a.phrase_id == p) = true
      · have hnone : ∀ rec ∈ t,
            ¬((rec.user_id == u && rec.phrase_id == p) = true) := by
          intro rec hrec hmatch
          have hpair := List.pairwise_cons.mp hu
          apply hpair.1 rec hrec
          simp at ha hmatch
          exact ⟨ha.1.trans hmatch.1.symm, ha.2.trans hmatch.2.symm⟩
        have hmapid : t.map (fun rec =>
            if rec.user_id == u && rec.phrase_id == p then
              { rec with sent_at := now, email_status := "sent", plan_id := plan }
            else rec) = t := by
          have hpt : ∀ rec ∈ t,
              (if rec.user_id == u && rec.phrase_id == p then
                ({ rec with
                   sent_at := now,
                   email_status := "sent",
                   plan_id := plan } : HistoryRecord)
              else rec) = rec := by
            intro rec hrec
            rw [if_neg (hnone rec hrec)]
          rw [List.map_congr_left hpt]
          simp
        refine ⟨{ a with
          sent_at := now,
          email_status := "sent",
          plan_id := plan }, ?_, rfl, rfl⟩
        rw [if_pos ha, List.filter_cons, if_pos (by simpa using ha), hmapid,
          List.filter_eq_nil_iff.mpr hnone]
      · rw [if_neg ha, List.filter_cons, if_neg (by simpa using ha)]
        have hany' : t.any
            (fun rec => rec.user_id == u && rec.phrase_id == p) = true := by
          rcases List.any_eq_true.mp hany with ⟨rec, hrec, hm⟩
          rcases List.mem_cons.mp hrec with rfl | hrec'
          · exact absurd hm ha
          · exact List.any_eq_true.mpr ⟨rec, hrec', hm⟩
        exact ih (List.pairwise_cons.mp hu).2 hany'

theorem record_phrase_sent_single_row (db : DB) (u p : Nat)
    (plan : Option Int) (now : Nat) (hu : UniquePairs db.user_phrase_history) :
    ∃ rec0 : HistoryRecord,
      (record_phrase_sent db u p plan now).1.user_phrase_history.filter
          (fun rec => rec.user_id == u && rec.phrase_id == p) = [rec0] ∧
        rec0.sent_at = now ∧ rec0.email_status = "sent" := by
  unfold record_phrase_sent
  by_cases h : hasPair db u p
  · rw [if_pos h]
    exact filter_map_upsert hu h
  · rw [if_neg h]
    refine ⟨{ user_id := u, phrase_id := p, sent_at := now, email_status := "sent", plan_id := plan }, ?_, rfl, rfl⟩
    rw [List.filter_append]
    rw [List.filter_eq_nil_iff.mpr ?_]
    · simp
    · intro rec hrec hmatch
      have : hasPair db u p = true := List.any_eq_true.mpr ⟨rec, hrec, hmatch⟩
      exact h this

theorem record_phrase_sent_uniquePairs {db : DB} {u p : Nat}
    {plan : Option Int} {now : Nat} (hu : UniquePairs db.user_phrase_history) :
    UniquePairs (record_phrase_sent db u p plan now).1.user_phrase_history := by
  unfold record_phrase_sent
  by_cases h : hasPair db u p
  · rw [if_pos h]
    have hkey : ∀ rec : HistoryRecord,
        ((if rec.user_id == u && rec.phrase_id == p then
            { rec with sent_at := now, email_status := "sent", plan_id := plan }
          else rec) : HistoryRecord).user_id = rec.user_id ∧
        ((if rec.user_id == u && rec.phrase_id == p then
            { rec with sent_at := now, email_status := "sent", plan_id := plan }
          else rec) : HistoryRecord).phrase_id = rec.phrase_id := by
      intro rec
      by_cases hm : (rec.user_id == u && rec.phrase_id == p) = true
      · rw [if_pos hm]
        exact ⟨rfl, rfl⟩
      · rw [if_neg hm]
        exact ⟨rfl, rfl⟩
    refine List.Pairwise.map _ ?_ hu
    intro a b hR hcon
    exact hR ⟨((hkey a).1).symm.trans (hcon.1.trans (hkey b).1),
      ((hkey a).2).symm.trans (hcon.2.trans (hkey b).2)⟩
  · rw [if_neg h]
    apply uniquePairs_append hu
    intro x hx hcon
    apply h
    exact List.any_eq_true.mpr ⟨x, hx, by simp [hcon.1, hcon.2]⟩

/-- One-item catalog with an empty ledger, for the dispatch-recorder claims. -/
def dbOneA : DB := { phrases := [phA], user_phrase_history := [] }

/-- C3 counterexample: at a concrete database, the second identical
`record_phrase_sent` call returns `TRUE` — the very same success outcome as
the first call — so no distinguishable `AlreadyRecorded` (was-new = false)
signal is ever reported. -/
theorem record_twice_same_outcome_cex :
    (record_phrase_sent (record_phrase_sent dbOneA 7 1 none 5).1
        7 1 none 5).2 = true ∧
      (record_phrase_sent dbOneA 7 1 none 5).2 = true := by decide

/-- C3 amended: calling `record_phrase_sent` twice with identical arguments
leaves exactly one ledger row for the (subscriber, content) pair, but the
second call returns `TRUE` exactly like the first — the function returns
`TRUE` unconditionally and emits no distinguishable `AlreadyRecorded`
signal. -/
theorem record_phrase_sent_idempotent_upsert (db : DB) (u p : Nat)
    (plan : Option Int) (n1 n2 : Nat)
    (hu : UniquePairs db.user_phrase_history) :
    ((record_phrase_sent (record_phrase_sent db u p plan n1).1
          u p plan n2).1.user_phrase_history.filter
        (fun rec => rec.user_id == u && rec.phrase_id == p)).length = 1 ∧
      (record_phrase_sent db u p plan n1).2 = true ∧
      (record_phrase_sent (record_phrase_sent db u p plan n1).1
          u p plan n2).2 = true := by
  obtain ⟨rec0, hr, -, -⟩ := record_phrase_sent_single_row
    (record_phrase_sent db u p plan n1).1 u p plan n2
    (record_phrase_sent_uniquePairs hu)
  refine ⟨?_, record_phrase_sent_returns_true _ _ _ _ _,
    record_phrase_sent_returns_true _ _ _ _ _⟩
  rw [hr]
  rfl

/-- C3 amended witness: two identical calls at the one-item catalog. -/
theorem record_phrase_sent_idempotent_upsert_witness :
    ((record_phrase_sent (record_phrase_sent dbOneA 7 1 none 5).1
          7 1 none 5).1.user_phrase_history.filter
        (fun rec => rec.user_id == 7 && rec.phrase_id == 1)).length = 1 ∧
      (record_phrase_sent dbOneA 7 1 none 5).2 = true ∧
      (record_phrase_sent (record_phrase_sent dbOneA 7 1 none 5).1
          7 1 none 5).2 = true :=
  record_phrase_sent_idempotent_upsert dbOneA 7 1 none 5 5 (by decide)

/-- C8 counterexample: `record_phrase_sent` at time 5 repeated at time 9
leaves a single row whose `sent_at` is 9, not the original 5 — the retry
overwrote the timestamp via `DO UPDATE SET sent_at = NOW()`. -/
theorem repeat_record_updates_timestamp_cex :
    ((record_phrase_sent (record_phrase_sent dbOneA 7 1 none 5).1
        7 1 none 9).1.user_phrase_history.map (fun rec => rec.sent_at)) = [9] ∧
      (9 : Nat) ≠ 5 := by decide

/-- C8 amended: after `record_phrase_sent` at time `n1` and an identical
retry at time `n2`, exactly one row exists for the (subscriber, content)
pair and its `sent_at` equals `n2` — the retry updates the timestamp to the
later call's `NOW()` rather than keeping the original. -/
theorem repeat_record_single_row_latest_timestamp (db : DB) (u p : Nat)
    (plan : Option Int) (n1 n2 : Nat)
    (hu : UniquePairs db.user_phrase_history) :
    ((record_phrase_sent (record_phrase_sent db u p plan n1).1
          u p plan n2).1.user_phrase_history.filter
        (fun rec => rec.user_id == u && rec.phrase_id == p)).map
      (fun rec => rec.sent_at) = [n2] := by
  obtain ⟨rec0, hr, hts, -⟩ := record_phrase_sent_single_row
    (record_phrase_sent db u p plan n1).1 u p plan n2
    (record_phrase_sent_uniquePairs hu)
  rw [hr, List.map_cons, List.map_nil, hts]

/-- C8 amended witness: retry at time 9 after a first call at time 5. -/
theorem repeat_record_single_row_latest_timestamp_witness :
    ((record_phrase_sent (record_phrase_sent dbOneA 7 1 none 5).1
          7 1 none 9).1.user_phrase_history.filter
        (fun rec => rec.user_id == 7 && rec.phrase_id == 1)).map
      (fun rec => rec.sent_at) = [9] :=
  repeat_record_single_row_latest_timestamp dbOneA 7 1 none 5 9 (by decide)

/-- C9 (spec-modelled Eligibility Gate): a subscriber with no prior
HistoryRecord is always due; otherwise, for any plan interval and cap,
`isDue` holds exactly when `now - lastSentAt` has reached the plan's
interval AND today's recorded sends are below the max-per-day cap — in
particular it is false whenever the cap is saturated; with a 24-hour
interval and a last send at `t`, the gate is closed at `t + 23h59m` and
(cap permitting) open at `t + 24h`. -/
theorem isDue_spec (t sentToday frequencyHours maxPerDay now : Nat) :
    (∀ s f m n, isDue none s f m n = true) ∧
      (isDue (some t) sentToday frequencyHours maxPerDay now = true ↔
        now - t ≥ frequencyHours * 60 ∧ sentToday < maxPerDay) ∧
      isDue (some t) sentToday 24 maxPerDay (t + 1439) = false ∧
      (sentToday < maxPerDay →
        isDue (some t) sentToday 24 maxPerDay (t + 1440) = true) := by
  refine ⟨fun s f m n => rfl, ?_, ?_, ?_⟩
  · unfold isDue
    simp
  · unfold isDue
    have hne : ¬(t + 1439 - t ≥ 24 * 60) := by omega
    simp [hne]
  · intro hcap
    unfold isDue
    have hge : t + 1440 - t ≥ 24 * 60 := by omega
    simp [hge, hcap]

/-- C9 witness: last send at minute 0, cap 1; the biconditional is
exercised at the cap-saturated input `sentToday = 1`, where the gate is
closed although the interval has elapsed. -/
theorem isDue_spec_witness :
    (∀ s f m n, isDue none s f m n = true) ∧
      (isDue (some 0) 1 24 1 2000 = true ↔
        2000 - 0 ≥ 24 * 60 ∧ 1 < 1) ∧
      isDue (some 0) 1 24 1 (0 + 1439) = false ∧
      isDue (some 0) 0 24 1 (0 + 1440) = true := by
  obtain ⟨h1, h2, h3, -⟩ := isDue_spec 0 1 24 1 2000
  obtain ⟨-, -, -, h4⟩ := isDue_spec 0 0 24 1 2000
  exact ⟨h1, h2, h3, h4 (by decide)⟩

theorem sorted_ge_min_le {s : List Nat} (hs : s.Sorted (· ≥ ·)) {i : Nat}
    (h : i < s.length) (hi : i + 1 = s.length) {x : Nat} (hx : x ∈ s) :
    s.get ⟨i, h⟩ ≤ x := by
  obtain ⟨⟨j, hj⟩, rfl⟩ := List.mem_iff_get.mp hx
  rcases Nat.lt_or_ge j i with hlt | hge
  · exact hs.rel_get_of_lt (by simpa using hlt)
  · have hji : j = i := by omega
    subst hji
    exact le_refl _

theorem pruneCutoff_min {db : DB} {u cut : Nat}
    (hle : user_received_count db u ≤ 51)
    (hcut : pruneCutoff db u = some cut) :
    ∀ rec ∈ userHistory db u, cut ≤ rec.sent_at := by
  intro rec hrec
  unfold pruneCutoff at hcut
  rw [List.getElem?_eq_some] at hcut
  obtain ⟨h50, hval⟩ := hcut
  have hlen : (((userHistory db u).map
      (fun rec => rec.sent_at)).insertionSort (· ≥ ·)).length =
      user_received_count db u := by
    rw [List.length_insertionSort, List.length_map]
    rfl
  have hsorted : (((userHistory db u).map
      (fun rec => rec.sent_at)).insertionSort (· ≥ ·)).Sorted (· ≥ ·) :=
    List.sorted_insertionSort _ _
  have hmem : rec.sent_at ∈ ((userHistory db u).map
      (fun rec => rec.sent_at)).insertionSort (· ≥ ·) := by
    rw [List.mem_insertionSort]
    exact List.mem_map_of_mem _ hrec
  have hmin := sorted_ge_min_le hsorted h50 (by omega) hmem
  rw [← hval]
  simpa [List.get_eq_getElem] using hmin

theorem prune_eq_self_of_le51 {db : DB} {u : Nat}
    (h : user_received_count db u ≤ 51) : prune db u = db := by
  unfold prune
  cases hcut : pruneCutoff db u with
  | none => rfl
  | some cut =>
      show ({ db with user_phrase_history := db.user_phrase_history.filter (fun rec => !(rec.user_id == u && rec.sent_at < cut)) } : DB) = db
      have hmin := pruneCutoff_min h hcut
      have hfil : db.user_phrase_history.filter
          (fun rec => !(rec.user_id == u && rec.sent_at < cut)) =
          db.user_phrase_history := by
        rw [List.filter_eq_self]
        intro rec hrec
        by_cases hru : (rec.user_id == u) = true
        · have hrecu : rec ∈ userHistory db u := List.mem_filter.mpr ⟨hrec, hru⟩
          have hge := hmin rec hrecu
          simp [hru]
          omega
        · simp at hru
          simp [hru]
      rw [hfil]

/-- C10: when the cycle-reset branch runs for a subscriber whose history,
the just-inserted sentinel included, holds at most 51 rows, the prune
subquery finds no strictly older timestamp to cut at and the `DELETE`
removes nothing: the resulting ledger is exactly the original with the
sentinel row appended. -/
theorem small_history_prune_noop (db : DB) (u now r : Nat)
    (hs : hasPair db u sentinelPhraseId = false)
    (hc : user_received_count db u ≥ total_phrases_count db)
    (hn : user_received_count db u + 1 ≤ 51) :
    ∃ res, get_smart_phrase_for_user db u now r =
      some ({ db with user_phrase_history :=
        db.user_phrase_history ++ [cycleResetSentinel u now] }, res) := by
  have hcount1 : user_received_count { db with user_phrase_history :=
      db.user_phrase_history ++ [cycleResetSentinel u now] } u ≤ 51 := by
    unfold user_received_count
    rw [userHistory_insert_sentinel, List.length_append]
    unfold user_received_count at hn
    simpa using hn
  have hpr := prune_eq_self_of_le51 hcount1
  refine ⟨selectRandom { db with user_phrase_history :=
    db.user_phrase_history ++ [cycleResetSentinel u now] } u r, ?_⟩
  rw [get_smart_reset_branch hc (insert_sentinel hs) r, hpr]

/-- C10 witness: the fully-sent 3-item catalog — 4 rows after the sentinel
insert, so the prune removes nothing. -/
theorem small_history_prune_noop_witness :
    ∃ res, get_smart_phrase_for_user dbFull3 7 100 0 =
      some ({ dbFull3 with user_phrase_history :=
        dbFull3.user_phrase_history ++ [cycleResetSentinel 7 100] }, res) :=
  small_history_prune_noop dbFull3 7 100 0 (by decide) (by decide) (by decide)

/-- C4 counterexample: subscriber 7 holds 52 `'sent'` rows with distinct
timestamps; the reset branch inserts the sentinel (53 rows) and the prune
keeps every row with `sent_at` at least the 51st-newest timestamp — 51 rows
remain, not 50, and item C (whose `'sent'` row survives) is still not
eligible for selection. -/
theorem prune_keeps_51_records_cex :
    (get_smart_phrase_for_user db52 7 100 0).map
        (fun x => (userHistory x.1 7).length) = some 51 ∧
      (51 : Nat) ≠ 50 ∧
      (get_smart_phrase_for_user db52 7 100 0).map
        (fun x => decide (phC ∈ candidatePhrases x.1 7)) = some false := by
  decide

theorem sorted_gt_filter_take :
    ∀ (s : List Nat), s.Sorted (· > ·) →
      ∀ (i : Nat) (h : i < s.length),
        s.filter (fun x => decide (s.get ⟨i, h⟩ ≤ x)) = s.take (i + 1) := by
  intro s
  induction s with
  | nil =>
      intro _ i h
      exact absurd h (Nat.not_lt_zero i)
  | cons a t ih =>
      intro hs i h
      cases i with
      | zero =>
          have hget : (a :: t).get ⟨0, h⟩ = a := rfl
          rw [hget]
          rw [List.filter_cons, if_pos (by simp)]
          have hnone : ∀ x ∈ t, ¬(decide (a ≤ x) = true) := by
            intro x hx
            have hgt := (List.pairwise_cons.mp hs).1 x hx
            simp only [decide_eq_true_eq]
            omega
          rw [List.filter_eq_nil_iff.mpr hnone]
          rfl
      | succ j =>
          have hj : j < t.length := by simpa using h
          have hget : (a :: t).get ⟨j + 1, h⟩ = t.get ⟨j, hj⟩ := rfl
          rw [hget]
          have hmem : t.get ⟨j, hj⟩ ∈ t := t.get_mem _ _
          have hgt := (List.pairwise_cons.mp hs).1 _ hmem
          rw [List.filter_cons, if_pos (by simp only [decide_eq_true_eq]; omega)]
          rw [ih (List.pairwise_cons.mp hs).2 j hj]
          rfl

theorem length_filter_map_eq {α β : Type} (l : List α) (f : α → β)
    (p : β → Bool) :
    ((l.map f).filter p).length = (l.filter (fun a => p (f a))).length := by
  induction l with
  | nil => rfl
  | cons a t ih =>
      rw [List.map_cons, List.filter_cons, List.filter_cons]
      by_cases hpa : p (f a) = true
      · rw [if_pos hpa, if_pos hpa]
        simpa using ih
      · rw [if_neg hpa, if_neg hpa]
        exact ih

theorem length_filter_ge_cutoff {l : List Nat} (hnd : l.Nodup) {i : Nat}
    (h50 : i < (l.insertionSort (· ≥ ·)).length) :
    (l.filter (fun x =>
      decide ((l.insertionSort (· ≥ ·)).get ⟨i, h50⟩ ≤ x))).length = i + 1 := by
  have hperm : List.Perm (l.insertionSort (· ≥ ·)) l :=
    List.perm_insertionSort _ _
  have hsorted : (l.insertionSort (· ≥ ·)).Sorted (· ≥ ·) :=
    List.sorted_insertionSort _ _
  have hnds : (l.insertionSort (· ≥ ·)).Nodup := hperm.nodup_iff.mpr hnd
  have hstrict : (l.insertionSort (· ≥ ·)).Sorted (· > ·) := by
    have hand := hsorted.and hnds
    exact hand.imp (fun hab => lt_of_le_of_ne hab.1 hab.2.symm)
  rw [← (hperm.filter _).length_eq]
  rw [sorted_gt_filter_take _ hstrict i h50, List.length_take]
  omega

theorem userHistory_prune_some {db : DB} {u cut : Nat}
    (hcut : pruneCutoff db u = some cut) :
    userHistory (prune db u) u =
      (userHistory db u).filter (fun rec => !(decide (rec.sent_at < cut))) := by
  unfold prune
  rw [hcut]
  show userHistory { db with user_phrase_history := db.user_phrase_history.filter (fun rec => !(rec.user_id == u && rec.sent_at < cut)) } u = _
  unfold userHistory
  rw [List.filter_filter, List.filter_filter]
  apply List.filter_congr
  intro rec hrec
  by_cases hru : (rec.user_id == u) = true <;>
    by_cases hsc : (decide (rec.sent_at < cut)) = true <;>
      simp [hru, hsc]

/-- C4 amended: when the cycle-reset branch runs for a subscriber whose rows
(the freshly inserted sentinel included) number more than 51 and carry
pairwise distinct timestamps, the prune keeps exactly the 51 most recent
rows — those with `sent_at` at least the 51st-newest timestamp — not the 50
the spec states; items whose `'sent'` rows survive stay ineligible. -/
theorem cycle_reset_prune_keeps_51 (db : DB) (u now r : Nat)
    (hs : hasPair db u sentinelPhraseId = false)
    (hc : user_received_count db u ≥ total_phrases_count db)
    (hbig : 51 ≤ user_received_count db u)
    (hnd : ((userHistory db u).map (fun rec => rec.sent_at) ++ [now]).Nodup) :
    ∃ db' res, get_smart_phrase_for_user db u now r = some (db', res) ∧
      user_received_count db' u = 51 := by
  have hbranch : get_smart_phrase_for_user db u now r =
      some (prune { db with user_phrase_history := db.user_phrase_history ++ [cycleResetSentinel u now] } u, selectRandom (prune { db with user_phrase_history := db.user_phrase_history ++ [cycleResetSentinel u now] } u) u r) :=
    get_smart_reset_branch hc (insert_sentinel hs) r
  refine ⟨_, _, hbranch, ?_⟩
  have htimes : (userHistory { db with user_phrase_history := db.user_phrase_history ++ [cycleResetSentinel u now] } u).map (fun rec => rec.sent_at) = (userHistory db u).map (fun rec => rec.sent_at) ++ [now] := by
    rw [userHistory_insert_sentinel, List.map_append]
    rfl
  have hnd1 : ((userHistory { db with user_phrase_history := db.user_phrase_history ++ [cycleResetSentinel u now] } u).map (fun rec => rec.sent_at)).Nodup := by
    rw [htimes]
    exact hnd
  have hslen : (((userHistory { db with user_phrase_history := db.user_phrase_history ++ [cycleResetSentinel u now] } u).map (fun rec => rec.sent_at)).insertionSort (· ≥ ·)).length = user_received_count db u + 1 := by
    rw [List.length_insertionSort, List.length_map, userHistory_insert_sentinel,
      List.length_append]
    rfl
  have h50 : 50 < (((userHistory { db with user_phrase_history := db.user_phrase_history ++ [cycleResetSentinel u now] } u).map (fun rec => rec.sent_at)).insertionSort (· ≥ ·)).length := by
    omega
  have hcut : pruneCutoff { db with user_phrase_history := db.user_phrase_history ++ [cycleResetSentinel u now] } u = some ((((userHistory { db with user_phrase_history := db.user_phrase_history ++ [cycleResetSentinel u now] } u).map (fun rec => rec.sent_at)).insertionSort (· ≥ ·)).get ⟨50, h50⟩) := by
    unfold pruneCutoff
    rw [List.getElem?_eq_getElem h50]
    rfl
  have hup := userHistory_prune_some hcut
  unfold user_received_count
  rw [hup]
  have hlf := length_filter_map_eq (userHistory { db with user_phrase_history := db.user_phrase_history ++ [cycleResetSentinel u now] } u) (fun rec => rec.sent_at) (fun x => !(decide (x < (((userHistory { db with user_phrase_history := db.user_phrase_history ++ [cycleResetSentinel u now] } u).map (fun rec => rec.sent_at)).insertionSort (· ≥ ·)).get ⟨50, h50⟩)))
  have hpred : ∀ x ∈ ((userHistory { db with user_phrase_history := db.user_phrase_history ++ [cycleResetSentinel u now] } u).map (fun rec => rec.sent_at)), (!(decide (x < (((userHistory { db with user_phrase_history := db.user_phrase_history ++ [cycleResetSentinel u now] } u).map (fun rec => rec.sent_at)).insertionSort (· ≥ ·)).get ⟨50, h50⟩))) = decide ((((userHistory { db with user_phrase_history := db.user_phrase_history ++ [cycleResetSentinel u now] } u).map (fun rec => rec.sent_at)).insertionSort (· ≥ ·)).get ⟨50, h50⟩ ≤ x) := by
    intro x hx
    rw [← decide_not]
    exact decide_eq_decide.mpr Nat.not_lt
  have hcount := length_filter_ge_cutoff hnd1 h50
  exact hlf.symm.trans
    ((congrArg List.length (List.filter_congr hpred)).trans hcount)

/-- C4 amended witness: at `db52` (52 rows, distinct timestamps) the reset
prunes the ledger down to exactly 51 rows for subscriber 7. -/
theorem cycle_reset_prune_keeps_51_witness :
    ∃ db' res, get_smart_phrase_for_user db52 7 100 0 = some (db', res) ∧
      user_received_count db' 7 = 51 :=
  cycle_reset_prune_keeps_51 db52 7 100 0 (by decide) (by decide) (by decide)
    (by decide)
